import Mathlib

/-!
Verification of the seven-segment OCR core of the Humidity app.

The development shallowly embeds, in Lean, the structural digit decoder of
`machine_learning/production_ocr.py` (`ProductionOCR.template_matching_predict`,
`predict_digit`, `process_humidity_reading`) and the dataset generator of
`machine_learning/scripts/generate_seven_segment_dataset.py`
(`SevenSegmentGenerator`: geometry, clean rendering and the degradation
pipeline), and proves the specified properties about them.

Conventions used throughout:
* Python floats are modelled as rationals (`ℚ`); the arithmetic the claims
  depend on (sums, halves, `min`, clipping) is exact in both.
* `numpy` uint8 pixel values are modelled as `ℕ`; `np.clip(v, 0, 255)`
  followed by `astype(np.uint8)` is `toByte (clip255 v)` (truncation of a
  clipped non-negative value is the floor).
* Python dictionaries keyed by characters are modelled as if-chains
  returning `Option`, with `Option.getD` for `dict.get(key, default)`.
* Fallible computations return `Option` / a dedicated outcome type; a
  Python result dict without a `'digit'` key is `none`.
* Because rational arithmetic does not reduce in the kernel, each decoder
  definition over `ℚ` has an integer-scaled mirror (scores are doubled);
  the correspondence is proved once and `decide` runs on the mirror.
-/

set_option maxRecDepth 40000

set_option maxHeartbeats 1000000

namespace HumidityOCR

/-- The seven display segments, named as in the `segments` dictionary of
`ProductionOCR.template_matching_predict` (production_ocr.py, lines 298-306).
Under the conventional seven-segment lettering: top = A, topRight = B,
bottomRight = C, bottom = D, bottomLeft = E, topLeft = F, middle = G. -/
inductive Seg
  | top
  | topRight
  | topLeft
  | middle
  | bottomRight
  | bottomLeft
  | bottom
  deriving DecidableEq, Fintype, Repr

open Seg

/-- The seven segment keys in the order the source's `segments` dict lists
them (the iteration order of `segment_states.items()`). -/
def allSegs : List Seg :=
  [top, topRight, topLeft, middle, bottomRight, bottomLeft, bottom]

/-- The `patterns` dict of `ProductionOCR.template_matching_predict`
(production_ocr.py, lines 315-326): digit → list of active segments. -/
def patterns : Nat → List Seg
  | 0 => [top, topRight, topLeft, bottomRight, bottomLeft, bottom]
  | 1 => [topRight, bottomRight]
  | 2 => [top, topRight, middle, bottomLeft, bottom]
  | 3 => [top, topRight, middle, bottomRight, bottom]
  | 4 => [topLeft, topRight, middle, bottomRight]
  | 5 => [top, topLeft, middle, bottomRight, bottom]
  | 6 => [top, topLeft, middle, bottomLeft, bottomRight, bottom]
  | 7 => [top, topRight, bottomRight]
  | 8 => [top, topRight, topLeft, middle, bottomRight, bottomLeft, bottom]
  | 9 => [top, topRight, topLeft, middle, bottomRight, bottom]
  | _ => []

/-- The `digit_segments` dict of `SevenSegmentGenerator`
(generate_seven_segment_dataset.py, lines 51-62), keyed by the digit
character; values are the generator's segment letters `a`..`g`.
`none` models a key that is absent from the dict. -/
def digit_segments? (d : Char) : Option (List Char) :=
  if d = '0' then some ['a', 'b', 'c', 'd', 'e', 'f']
  else if d = '1' then some ['b', 'c']
  else if d = '2' then some ['a', 'b', 'g', 'e', 'd']
  else if d = '3' then some ['a', 'b', 'g', 'c', 'd']
  else if d = '4' then some ['f', 'g', 'b', 'c']
  else if d = '5' then some ['a', 'f', 'g', 'c', 'd']
  else if d = '6' then some ['a', 'f', 'g', 'e', 'd', 'c']
  else if d = '7' then some ['a', 'b', 'c']
  else if d = '8' then some ['a', 'b', 'c', 'd', 'e', 'f', 'g']
  else if d = '9' then some ['a', 'b', 'c', 'd', 'f', 'g']
  else none

/-- Correspondence between the generator's segment letters and the decoder's
segment names: a = top (A), b = topRight (B), c = bottomRight (C),
d = bottom (D), e = bottomLeft (E), f = topLeft (F), g = middle (G). -/
def letterSeg (c : Char) : Option Seg :=
  if c = 'a' then some top
  else if c = 'b' then some topRight
  else if c = 'c' then some bottomRight
  else if c = 'd' then some bottom
  else if c = 'e' then some bottomLeft
  else if c = 'f' then some topLeft
  else if c = 'g' then some middle
  else none

/-- The digit characters `'0'..'9'` used as keys of `digit_segments?`. -/
def digitChar (d : Nat) : Char :=
  if d = 0 then '0'
  else if d = 1 then '1'
  else if d = 2 then '2'
  else if d = 3 then '3'
  else if d = 4 then '4'
  else if d = 5 then '5'
  else if d = 6 then '6'
  else if d = 7 then '7'
  else if d = 8 then '8'
  else '9'

/-- The truth table exactly as the specification states it (spec §4.1), under
the claimed correspondence A = top, B = topRight, C = bottomRight, D = bottom,
E = bottomLeft, F = topLeft, G = middle.  This is the spec-side table, written
from the spec's words, to be compared against the two tables in the source. -/
def truthTable : Nat → List Seg
  | 0 => [top, topRight, bottomRight, bottom, bottomLeft, topLeft]
  | 1 => [topRight, bottomRight]
  | 2 => [top, topRight, middle, bottomLeft, bottom]
  | 3 => [top, topRight, middle, bottomRight, bottom]
  | 4 => [topLeft, middle, topRight, bottomRight]
  | 5 => [top, topLeft, middle, bottomRight, bottom]
  | 6 => [top, topLeft, middle, bottomLeft, bottom, bottomRight]
  | 7 => [top, topRight, bottomRight]
  | 8 => [top, topRight, bottomRight, bottom, bottomLeft, topLeft, middle]
  | 9 => [top, topRight, bottomRight, bottom, topLeft, middle]
  | _ => []

/-- The score the decoder computes for one digit (production_ocr.py, lines
332-341): `+1` for each expected segment that is observed active, `-0.5` for
each observed-active segment that is not expected. -/
def segScore (states : Seg → Bool) (d : Nat) : ℚ :=
  ((patterns d).countP (fun s => states s) : ℚ) -
    (1 / 2) * ((allSegs.countP (fun s => states s && !(patterns d).contains s)) : ℚ)

/-- Integer mirror of `segScore`, scaled by 2 (half points become whole
points); used only to make decision procedures kernel-reducible. -/
def segScore2 (states : Seg → Bool) (d : Nat) : ℤ :=
  2 * ((patterns d).countP (fun s => states s) : ℤ) -
    ((allSegs.countP (fun s => states s && !(patterns d).contains s)) : ℤ)

/-- The selection loop of `template_matching_predict` (production_ocr.py,
lines 328-345): `best_digit = None`, `best_score = 0`, iterate the digits in
increasing order and update only on a strictly greater score. -/
def templateBest (states : Seg → Bool) : Option Nat × ℚ :=
  (List.range 10).foldl
    (fun acc d => if segScore states d > acc.2 then (some d, segScore states d) else acc)
    (none, 0)

/-- Integer mirror of `templateBest` (scores scaled by 2). -/
def templateBest2 (states : Seg → Bool) : Option Nat × ℤ :=
  (List.range 10).foldl
    (fun acc d => if segScore2 states d > acc.2 then (some d, segScore2 states d) else acc)
    (none, 0)

/-- A recognition result dict that carries a `'digit'` key: method tag,
digit, confidence and the `is_confident` flag. -/
structure RecResult where
  method : String
  digit : Nat
  confidence : ℚ
  is_confident : Bool
  deriving DecidableEq, Repr

/-- `ProductionOCR.template_matching_predict` restricted to its decision
kernel (production_ocr.py, lines 328-360): from the 7 boolean segment states
to either a result (digit found, confidence `min(0.5, best_score / 7)`,
`is_confident` always `False`) or `none`, which models the `'error'` dict
returned when `best_digit is None or best_score <= 0`. -/
def template_matching_predict (states : Seg → Bool) : Option RecResult :=
  match templateBest states with
  | (some d, s) =>
      if s > 0 then some ⟨"Template_Matching", d, min (1 / 2) (s / 7), false⟩ else none
  | (none, _) => none

/-- Integer mirror of `template_matching_predict`: digit plus doubled best
score (the confidence is recovered as `min (1/2) (score2 / 14)`). -/
def template2 (states : Seg → Bool) : Option (Nat × ℤ) :=
  match templateBest2 states with
  | (some d, s) => if s > 0 then some (d, s) else none
  | (none, _) => none

/-- The boolean activation vector of a digit's own truth-table row: exactly
the expected segments active.  (By theorem `c4_truth_tables` the decoder's
`patterns` row and the generator's `digit_segments` row agree, so this is
`activeSegments(d)` of the spec.) -/
def activationOf (d : Nat) : Seg → Bool := fun s => (patterns d).contains s

/-- The maximum of the per-digit scores over digits 0..9 (spec-side notion
used to state the selection property). -/
def maxScore (states : Seg → Bool) : ℚ :=
  (List.range 10).foldl (fun m d => max m (segScore states d)) (segScore states 0)

/-- Integer mirror of `maxScore` (scaled by 2). -/
def maxScore2 (states : Seg → Bool) : ℤ :=
  (List.range 10).foldl (fun m d => max m (segScore2 states d)) (segScore2 states 0)

/-- The lowest-numbered digit attaining the maximum score (spec-side notion:
the tie-break winner the spec prescribes). -/
def leastBestDigit (states : Seg → Bool) : Nat :=
  ((List.range 10).find? (fun d => decide (segScore states d = maxScore states))).getD 0

/-- Integer mirror of `leastBestDigit`. -/
def leastBestDigit2 (states : Seg → Bool) : Nat :=
  ((List.range 10).find? (fun d => decide (segScore2 states d = maxScore2 states))).getD 0

/-- The set of observed-active segments, as a finite set (spec-side notion
for the score formula `|expected ∩ active| - 0.5 * |active \ expected|`). -/
def activeSet (states : Seg → Bool) : Finset Seg :=
  Finset.univ.filter (fun s => states s = true)

/-- Spec-side count `|expected ∩ observed-active|` for one digit. -/
def specMatchCount (states : Seg → Bool) (d : Nat) : Nat :=
  ((patterns d).toFinset ∩ activeSet states).card

/-- Spec-side count `|observed-active \ expected|` for one digit. -/
def specExtraCount (states : Seg → Bool) (d : Nat) : Nat :=
  (activeSet states \ (patterns d).toFinset).card

/-! ### Geometry and clean rendering (`SevenSegmentGenerator`) -/

/-- The `segments` dict of `SevenSegmentGenerator.__init__`
(generate_seven_segment_dataset.py, lines 40-48): unit-square corner points
of each segment's quadrilateral, keyed by the generator's letters. -/
def segments? (c : Char) : Option (List (ℚ × ℚ)) :=
  if c = 'a' then some [(1/5, 1/10), (4/5, 1/10), (3/4, 3/20), (1/4, 3/20)]
  else if c = 'b' then some [(4/5, 1/10), (17/20, 3/20), (4/5, 9/20), (3/4, 2/5)]
  else if c = 'c' then some [(4/5, 11/20), (17/20, 3/5), (4/5, 9/10), (3/4, 17/20)]
  else if c = 'd' then some [(1/5, 9/10), (4/5, 9/10), (3/4, 17/20), (1/4, 17/20)]
  else if c = 'e' then some [(3/20, 3/5), (1/5, 11/20), (1/4, 17/20), (1/5, 9/10)]
  else if c = 'f' then some [(3/20, 3/20), (1/5, 1/10), (1/4, 2/5), (1/5, 9/20)]
  else if c = 'g' then some [(1/5, 9/20), (4/5, 9/20), (3/4, 1/2), (1/4, 1/2)]
  else none

/-- `(int(x * width), int(y * height))` of `create_clean_digit`: scaling a
unit-square point to pixel coordinates.  All coordinates are non-negative,
so Python's truncating `int()` is the floor. -/
def scalePoint (w h : ℕ) (q : ℚ × ℚ) : ℤ × ℤ :=
  (⌊q.1 * w⌋, ⌊q.2 * h⌋)

/-- Cross product of the edge `o → a` with the vector `o → p`. -/
def cross2 (o a p : ℤ × ℤ) : ℤ :=
  (a.1 - o.1) * (p.2 - o.2) - (a.2 - o.2) * (p.1 - o.1)

/-- Models `cv2.fillPoly` for the convex quadrilaterals used by the
generator: a pixel is filled when it lies in the closed convex hull of the
vertex points, i.e. on the same side of every directed edge.  (The exact
rasterisation boundary convention of OpenCV does not matter for any claim
proved here; only the empty-polygon case is ever exercised.) -/
def inConvexPoly (pts : List (ℤ × ℤ)) (p : ℤ × ℤ) : Bool :=
  !pts.isEmpty &&
    (((pts.zip (pts.rotate 1)).all fun e => decide (0 ≤ cross2 e.1 e.2 p)) ||
     ((pts.zip (pts.rotate 1)).all fun e => decide (cross2 e.1 e.2 p ≤ 0)))

/-- `SevenSegmentGenerator.create_clean_digit` (generate_seven_segment_dataset.py,
lines 64-78) as a pixel function: the canvas starts as uniform light gray
(220 on every channel); every polygon of `digit_segments.get(digit, [])` is
filled dark gray (40).  The fills all write the same value, so sequential
`cv2.fillPoly` calls and the pointwise "any segment covers this pixel" test
agree.  Every letter occurring in a `digit_segments` row is a key of
`segments`, so the `self.segments[segment]` lookup never fails; `getD []`
is only a type-level default. -/
def create_clean_digit (digit : Char) (w h : ℕ) (x y : ℤ) : ℕ :=
  if ((digit_segments? digit).getD []).any (fun s =>
      inConvexPoly (((segments? s).getD []).map (scalePoint w h)) (x, y))
  then 40 else 220

/-! ### Degradation pipeline (`SevenSegmentGenerator.add_realistic_effects`)

Each stage is embedded per pixel channel.  The three channels of the image
carry independent values through the same arithmetic, so a single scalar
value is threaded; the stage-1 mask `np.all(img < 100, axis=2)` is evaluated
on the rendered clean image, whose channels are always equal (220, 40 or a
dust gray), so it becomes `value < 100`.  Geometric quantities that only
decide which pixels receive which magnitude (reflection falloff at the
pixel, blurred smudge mask value, dust hits) are abstracted into one drawn
parameter per pixel and stage; the theorems quantify over all their values,
which over-approximates every possible random draw. -/

/-- `np.clip(v, 0, 255)`. -/
def clip255 (q : ℚ) : ℚ := max 0 (min 255 q)

/-- `astype(np.uint8)` applied to a clipped (hence non-negative) float:
truncation toward zero, i.e. the floor. -/
def toByte (q : ℚ) : ℕ := (⌊q⌋).toNat

/-- `SevenSegmentGenerator._reduce_contrast` per pixel
(generate_seven_segment_dataset.py, lines 104-117): normalise to [0,1],
blend toward mid-gray by the drawn factor `c`, add the drawn lightening
delta `δ` to pixels that are dark (< 100) in the *original* input image,
then rescale, clip and truncate. -/
def reduceContrastPixel (orig : ℕ) (c δ : ℚ) : ℕ :=
  toByte (clip255 ((1/2 + c * ((orig : ℚ) / 255 - 1/2) +
    (if orig < 100 then δ else 0)) * 255))

/-- Modelled from the spec (§9, open question): the rejected alternative
reading of `_reduce_contrast` in which the dark-pixel mask is computed from
the already-contrast-compressed image instead of the original input.  Used
only to show the source behaves differently from this reading. -/
def reduceContrastPostMaskPixel (orig : ℕ) (c δ : ℚ) : ℕ :=
  toByte (clip255 ((1/2 + c * ((orig : ℚ) / 255 - 1/2) +
    (if (1/2 + c * ((orig : ℚ) / 255 - 1/2)) * 255 < 100 then δ else 0)) * 255))

/-- One iteration of `SevenSegmentGenerator._add_reflections` per pixel:
add the overlay contribution (`intensity * fade` inside the circle, 0
outside, times 255), clip, truncate.  `ov` is the per-pixel overlay value. -/
def addReflectionPixel (p : ℕ) (ov : ℚ) : ℕ :=
  toByte (clip255 ((p : ℚ) + ov * 255))

/-- The 1-3 reflection overlays of `_add_reflections`, folded in draw order. -/
def addReflectionsPixel (p : ℕ) (ovs : List ℚ) : ℕ :=
  ovs.foldl addReflectionPixel p

/-- One iteration of `SevenSegmentGenerator._add_smudges` per pixel: darken
by `(mask / 255) * intensity * 255` (here the combined per-pixel amount
`m`), clip, truncate. -/
def addSmudgePixel (p : ℕ) (m : ℚ) : ℕ :=
  toByte (clip255 ((p : ℚ) - m))

/-- The 2-5 smudges of `_add_smudges`, folded in draw order. -/
def addSmudgesPixel (p : ℕ) (ms : List ℚ) : ℕ :=
  ms.foldl addSmudgePixel p

/-- `SevenSegmentGenerator._add_dust` per pixel: each of the 10-30 particles
overwrites the pixels it covers with its gray value (no blending); a pixel
not covered is unchanged. -/
def addDustPixel (p : ℕ) (particles : List (Bool × ℕ)) : ℕ :=
  particles.foldl (fun q d => if d.1 then d.2 else q) p

/-- `SevenSegmentGenerator._add_noise` per pixel: add the per-pixel Gaussian
draw `n` (from `np.random.normal`), clip, truncate. -/
def addNoisePixel (p : ℕ) (n : ℚ) : ℕ :=
  toByte (clip255 ((p : ℚ) + n))

/-- `SevenSegmentGenerator._vary_lighting` per pixel: multiply by the
gradient value `L` at this pixel, clip, truncate. -/
def varyLightingPixel (p : ℕ) (L : ℚ) : ℕ :=
  toByte (clip255 ((p : ℚ) * L))

/-- All random draws affecting one pixel of one generated sample.  The
comments record which generator supplies each draw in the source:
everything except `noise` comes from the process-global `random` module;
the per-pixel Gaussian noise values come from the process-global
`np.random` generator (`np.random.normal` in `_add_noise`). -/
structure PixelDraws where
  /-- `random.uniform(0.3, 0.7)` — python `random` (global). -/
  contrastFactor : ℚ
  /-- `random.uniform(0.1, 0.3)` — python `random` (global). -/
  brighten : ℚ
  /-- per-reflection overlay value at this pixel; centers, radii and
  intensities come from python `random` (global). -/
  reflections : List ℚ
  /-- per-smudge darkening at this pixel; positions, sizes, angles and
  intensities come from python `random` (global). -/
  smudges : List ℚ
  /-- per-particle (covers this pixel?, gray value); positions, sizes and
  grays come from python `random` (global). -/
  dust : List (Bool × ℕ)
  /-- the Gaussian draw at this pixel — `np.random` (global); its standard
  deviation comes from python `random`. -/
  noise : ℚ
  /-- lighting gradient value at this pixel; the gradient type comes from
  `random.choice` (python `random`, global). -/
  lighting : ℚ
  deriving Repr

/-- `SevenSegmentGenerator.add_realistic_effects` per pixel
(generate_seven_segment_dataset.py, lines 80-102): the six stages applied in
the source's order — contrast compression, reflections, smudges, dust,
noise, lighting. -/
def add_realistic_effects_pixel (orig : ℕ) (d : PixelDraws) : ℕ :=
  varyLightingPixel
    (addNoisePixel
      (addDustPixel
        (addSmudgesPixel
          (addReflectionsPixel
            (reduceContrastPixel orig d.contrastFactor d.brighten)
            d.reflections)
          d.smudges)
        d.dust)
      d.noise)
    d.lighting

/-- The full degradation pipeline on an image: every output pixel is the
per-pixel chain applied to the corresponding input pixel with the draws
landing on that pixel. -/
def add_realistic_effects (img : ℕ → ℕ → ℕ) (draws : ℕ → ℕ → PixelDraws)
    (x y : ℕ) : ℕ :=
  add_realistic_effects_pixel (img x y) (draws x y)

/-! ### Arbitration (`ProductionOCR.predict_digit`, `process_humidity_reading`)

The CNN classifier and the Tesseract engine are external collaborators
(spec §1, §6); their raw outputs on the given image (probability vectors,
recognised text) enter the embedding as oracle inputs, and the arbitration
logic over them is embedded from the source. -/

/-- Raw output of the external CNN model on the image: either the v3 dual
head (digit probabilities, segment activations) or a single probability
vector (v2 / single head). -/
inductive CnnOut
  | dual (digitProbs segProbs : List ℚ)
  | single (probs : List ℚ)
  deriving Repr

/-- `np.max` over a vector (the model outputs are non-empty). -/
def npMax : List ℚ → ℚ
  | [] => 0
  | x :: xs => xs.foldl max x

/-- Helper for `npArgmax`: carries the next index, best index, best value;
updates only on strictly greater, so the first maximum wins. -/
def npArgmaxGo : List ℚ → Nat → Nat → ℚ → Nat
  | [], _, bi, _ => bi
  | x :: xs, i, bi, bv =>
      if x > bv then npArgmaxGo xs (i + 1) i x else npArgmaxGo xs (i + 1) bi bv

/-- `np.argmax`: index of the first occurrence of the maximum. -/
def npArgmax : List ℚ → Nat
  | [] => 0
  | x :: xs => npArgmaxGo xs 1 0 x

/-- `np.mean(np.abs(segment_probs - 0.5) + 0.5)` of `cnn_predict_digit`. -/
def npMeanAbsHalf (l : List ℚ) : ℚ :=
  (l.foldl (fun acc p => acc + (|p - 1/2| + 1/2)) 0) / l.length

/-- `ProductionOCR.cnn_predict_digit` (production_ocr.py, lines 156-229)
with the model's raw prediction as an oracle input: v3 dual head combines
`0.7 * digit_confidence + 0.3 * segment_confidence`; otherwise the single
head's max probability is the confidence.  `none` models the `'error'`
dict returned when the model is unavailable. -/
def cnn_predict_digit (available : Bool) (out : CnnOut) : Option RecResult :=
  if available then
    match out with
    | .dual dp sp =>
        some ⟨"CNN_v3", npArgmax dp,
          7/10 * npMax dp + 3/10 * npMeanAbsHalf sp,
          decide ((1:ℚ)/2 ≤ 7/10 * npMax dp + 3/10 * npMeanAbsHalf sp)⟩
    | .single p =>
        some ⟨"CNN_v2", npArgmax p, npMax p, decide ((1:ℚ)/2 ≤ npMax p)⟩
  else none

/-- `int(text)` for a single digit character (the only shape
`traditional_ocr_predict` accepts after its `text.isdigit() and
len(text) == 1` check); `none` for any non-digit character.  (Python's
`isdigit` also accepts some non-ASCII digit characters, but for those
`int(text)` raises, the exception is caught, and the method returns its
error dict — observably the same `none`.) -/
def digitVal? (c : Char) : Option Nat :=
  if c = '0' then some 0
  else if c = '1' then some 1
  else if c = '2' then some 2
  else if c = '3' then some 3
  else if c = '4' then some 4
  else if c = '5' then some 5
  else if c = '6' then some 6
  else if c = '7' then some 7
  else if c = '8' then some 8
  else if c = '9' then some 9
  else none

/-- `ProductionOCR.traditional_ocr_predict` (production_ocr.py, lines
231-277) with the stripped Tesseract text as an oracle input: a digit is
produced only for a single-character digit string, with fixed confidence
0.6 (which exceeds the 0.5 threshold, so `is_confident` is true); every
other text yields the `'error'` dict, modelled as `none`. -/
def traditional_ocr_predict (available : Bool) (text : String) : Option RecResult :=
  if available then
    match text.toList with
    | [c] => (digitVal? c).map (fun v => ⟨"Traditional_OCR", v, 3/5, true⟩)
    | _ => none
  else none

/-- Availability flags of `ProductionOCR` (`cnn_available`,
`tesseract_available`). -/
structure OCRFlags where
  cnn_available : Bool
  tesseract_available : Bool

/-- Everything the three methods read from the image: the external CNN's
raw prediction, the external Tesseract text, and the white-ratio segment
states the template matcher computes from the preprocessed image. -/
structure OCRInputs where
  cnnOut : CnnOut
  ocrText : String
  segStates : Seg → Bool

/-- The result-gathering loop of `ProductionOCR.predict_digit`
(production_ocr.py, lines 380-396): walk the requested methods in order,
invoke `'cnn'` only when the model is available, `'traditional'` only when
Tesseract is available, `'template'` always; keep only results that carry a
digit; unknown method names are skipped. -/
def gatherResults (flags : OCRFlags) (inp : OCRInputs) (methods : List String) :
    List RecResult :=
  methods.foldl (fun acc m =>
    if m = "cnn" ∧ flags.cnn_available then
      acc ++ (cnn_predict_digit flags.cnn_available inp.cnnOut).toList
    else if m = "traditional" ∧ flags.tesseract_available then
      acc ++ (traditional_ocr_predict flags.tesseract_available inp.ocrText).toList
    else if m = "template" then
      acc ++ (template_matching_predict inp.segStates).toList
    else acc) []

/-- Python's `max(results, key=lambda x: x.get('confidence', 0))`: the
first element attaining the maximal confidence (later elements replace the
running best only on a strictly greater key). -/
def maxByConf (r : RecResult) (rs : List RecResult) : RecResult :=
  rs.foldl (fun b x => if x.confidence > b.confidence then x else b) r

/-- Outcome of `predict_digit`: a best result, or the
`{'error': 'All methods failed', 'methods_tried': methods}` dict. -/
inductive PredictOutcome
  | ok (r : RecResult)
  | allFailed (methods_tried : List String)
  deriving Repr

/-- `ProductionOCR.predict_digit` (production_ocr.py, lines 366-407):
gather digit-bearing results in requested order, return the one with the
highest confidence (first wins on ties), or the all-failed error carrying
the requested method list. -/
def predict_digit (flags : OCRFlags) (inp : OCRInputs) (methods : List String) :
    PredictOutcome :=
  match gatherResults flags inp methods with
  | [] => .allFailed methods
  | r :: rs => .ok (maxByConf r rs)

/-- The default method list of `predict_digit` (`methods is None`). -/
def defaultMethods : List String := ["cnn", "traditional", "template"]

/-- Outcome of `process_humidity_reading`: the `valid: True` dict, the
out-of-range `valid: False` dict, or the recognition-failed dict. -/
inductive HumidityResult
  | valid (humidity : Nat) (confidence : ℚ) (method : String) (is_confident : Bool)
  | outOfRange (humidity : Nat) (confidence : ℚ) (method : String)
  | failed (methods_tried : List String)
  deriving Repr

/-- `ProductionOCR.process_humidity_reading` (production_ocr.py, lines
409-448): run `predict_digit` with the default methods; on a digit result
check `0 <= humidity <= 100` (digits are naturals here, so the lower bound
is `0 ≤ h`, which always holds, and the test is `h ≤ 100`) and produce the
valid dict, else the out-of-range dict; on failure the error dict. -/
def process_humidity_reading (flags : OCRFlags) (inp : OCRInputs) : HumidityResult :=
  match predict_digit flags inp defaultMethods with
  | .ok r =>
      if r.digit ≤ 100 then .valid r.digit r.confidence r.method r.is_confident
      else .outOfRange r.digit r.confidence r.method
  | .allFailed ms => .failed ms

/-- The external-collaborator interface of spec §6: the CNN heads output
per-class probability vectors over the digits 0..9, i.e. length 10. -/
def wellFormedOut (out : CnnOut) : Prop :=
  match out with
  | .dual dp _ => dp.length = 10
  | .single p => p.length = 10

/-- `wellFormedOut` for the CNN output carried by the oracle inputs. -/
def wellFormedProbs (inp : OCRInputs) : Prop :=
  wellFormedOut inp.cnnOut

/-- Concrete oracle inputs exhibiting a confidence tie between the
traditional method (fixed 0.6) and the CNN (max probability 0.6): the CNN
answers digit 0, Tesseract reads "5". -/
def c9Inp : OCRInputs :=
  ⟨.single [3/5, 2/5], "5", fun _ => false⟩

/-- Concrete oracle inputs on which only the template method produces a
digit (both external methods unavailable): digit 8's own activation
vector, a well-formed 10-class CNN probability vector, unusable OCR text. -/
def c10Inp : OCRInputs :=
  ⟨.single [1, 0, 0, 0, 0, 0, 0, 0, 0, 0], "x", activationOf 8⟩

/-! ### Bridge lemmas between the rational decoder and its integer mirror -/

lemma int_div2_lt {a b : ℤ} : (a : ℚ) / 2 < (b : ℚ) / 2 ↔ a < b := by
  constructor
  · intro h
    have h2 : (a : ℚ) < b := by linarith
    exact_mod_cast h2
  · intro h
    have h2 : (a : ℚ) < b := by exact_mod_cast h
    linarith

lemma int_div2_le {a b : ℤ} : (a : ℚ) / 2 ≤ (b : ℚ) / 2 ↔ a ≤ b := by
  constructor
  · intro h
    have h2 : (a : ℚ) ≤ b := by linarith
    exact_mod_cast h2
  · intro h
    have h2 : (a : ℚ) ≤ b := by exact_mod_cast h
    linarith

lemma int_div2_inj {a b : ℤ} : (a : ℚ) / 2 = (b : ℚ) / 2 ↔ a = b := by
  constructor
  · intro h
    have h2 : (a : ℚ) = b := by linarith
    exact_mod_cast h2
  · rintro rfl
    rfl

lemma int_max_div2 (a b : ℤ) :
    max ((a : ℚ) / 2) ((b : ℚ) / 2) = ((max a b : ℤ) : ℚ) / 2 := by
  rcases le_total a b with h | h
  · rw [max_eq_right h, max_eq_right (int_div2_le.mpr h)]
  · rw [max_eq_left h, max_eq_left (int_div2_le.mpr h)]

lemma segScore_eq_half (states : Seg → Bool) (d : Nat) :
    segScore states d = (segScore2 states d : ℚ) / 2 := by
  unfold segScore segScore2
  push_cast
  ring

lemma templateFold_bridge (states : Seg → Bool) (l : List ℕ) :
    ∀ (o : Option ℕ) (z : ℤ),
      l.foldl (fun acc d => if segScore states d > acc.2 then (some d, segScore states d) else acc)
        (o, (z : ℚ) / 2) =
      ((l.foldl (fun acc d =>
          if segScore2 states d > acc.2 then (some d, segScore2 states d) else acc) (o, z)).1,
       ((l.foldl (fun acc d =>
          if segScore2 states d > acc.2 then (some d, segScore2 states d) else acc) (o, z)).2 : ℚ)
         / 2) := by
  induction l with
  | nil => intro o z; simp
  | cons d l ih =>
      intro o z
      simp only [List.foldl_cons]
      by_cases h : segScore2 states d > z
      · have hq : segScore states d > (z : ℚ) / 2 := by
          rw [segScore_eq_half]; exact int_div2_lt.mpr h
        rw [if_pos hq, if_pos h, segScore_eq_half states d]
        exact ih (some d) (segScore2 states d)
      · have hq : ¬ segScore states d > (z : ℚ) / 2 := by
          rw [segScore_eq_half]; exact fun hc => h (int_div2_lt.mp hc)
        rw [if_neg hq, if_neg h]
        exact ih o z

lemma templateBest_bridge (states : Seg → Bool) :
    templateBest states =
      ((templateBest2 states).1, ((templateBest2 states).2 : ℚ) / 2) := by
  unfold templateBest templateBest2
  have h0 : ((none : Option ℕ), (0 : ℚ)) = ((none : Option ℕ), ((0 : ℤ) : ℚ) / 2) := by
    norm_num
  rw [h0]
  exact templateFold_bridge states (List.range 10) none 0

lemma template_bridge (states : Seg → Bool) :
    template_matching_predict states =
      (template2 states).map (fun p : Nat × ℤ =>
        (⟨"Template_Matching", p.1, min (1 / 2) ((p.2 : ℚ) / 14), false⟩ : RecResult)) := by
  unfold template_matching_predict template2
  rw [templateBest_bridge]
  rcases h2 : templateBest2 states with ⟨o, z⟩
  cases o with
  | none => simp
  | some d =>
      simp only
      by_cases hz : z > 0
      · have hq : ((z : ℚ) / 2) > 0 := by
          have : ((0 : ℤ) : ℚ) / 2 < (z : ℚ) / 2 := int_div2_lt.mpr hz
          simpa using this
        rw [if_pos hq, if_pos hz]
        simp only [Option.map_some']
        have hc : (z : ℚ) / 2 / 7 = (z : ℚ) / 14 := by
          rw [div_div]; norm_num
        rw [hc]
      · have hq : ¬ ((z : ℚ) / 2) > 0 := by
          intro hc
          apply hz
          have : ((0 : ℤ) : ℚ) / 2 < (z : ℚ) / 2 := by simpa using hc
          exact int_div2_lt.mp this
        rw [if_neg hq, if_neg hz]
        simp

lemma maxFold_bridge (states : Seg → Bool) (l : List ℕ) :
    ∀ z : ℤ,
      l.foldl (fun m d => max m (segScore states d)) ((z : ℚ) / 2) =
        ((l.foldl (fun m d => max m (segScore2 states d)) z : ℤ) : ℚ) / 2 := by
  induction l with
  | nil => intro z; simp
  | cons d l ih =>
      intro z
      simp only [List.foldl_cons]
      rw [segScore_eq_half, int_max_div2]
      exact ih (max z (segScore2 states d))

lemma maxScore_bridge (states : Seg → Bool) :
    maxScore states = ((maxScore2 states : ℤ) : ℚ) / 2 := by
  unfold maxScore maxScore2
  rw [segScore_eq_half]
  exact maxFold_bridge states (List.range 10) (segScore2 states 0)

lemma leastBestDigit_bridge (states : Seg → Bool) :
    leastBestDigit states = leastBestDigit2 states := by
  unfold leastBestDigit leastBestDigit2
  have hp : (fun d => decide (segScore states d = maxScore states)) =
      (fun d => decide (segScore2 states d = maxScore2 states)) := by
    funext d
    rw [decide_eq_decide, segScore_eq_half, maxScore_bridge]
    exact int_div2_inj
  rw [hp]

/-- Shared helper: read off the result of `template_matching_predict` from a
computed value of its integer mirror plus an evaluated confidence. -/
lemma template_of_mirror (states : Seg → Bool) (d : ℕ) (z : ℤ) (q : ℚ)
    (h1 : template2 states = some (d, z)) (h2 : min (1 / 2) ((z : ℚ) / 14) = q) :
    template_matching_predict states = some ⟨"Template_Matching", d, q, false⟩ := by
  rw [template_bridge, h1, Option.map_some', h2]

/-! ### Claim theorems: the structural decoder (C1-C4) -/

/-- Claim C4 (confirmed): the digit-to-active-segments truth table is
reproduced bit-for-bit by both the generator's `digit_segments` map (under
the letter correspondence a=A..g=G) and the decoder's `patterns` map (under
top=A, top_right=B, bottom_right=C, bottom=D, bottom_left=E, top_left=F,
middle=G): for every digit both rows have exactly the members of the
spec's table `truthTable`. -/
theorem c4_truth_tables :
    ∀ d < 10, ∀ s : Seg,
      (s ∈ patterns d ↔ s ∈ truthTable d) ∧
      (s ∈ ((digit_segments? (digitChar d)).getD []).filterMap letterSeg ↔
        s ∈ truthTable d) := by decide

/-- Witness for `c4_truth_tables` at digit 8 and segment `middle`. -/
theorem c4_truth_tables_witness :
    (Seg.middle ∈ patterns 8 ↔ Seg.middle ∈ truthTable 8) ∧
      (Seg.middle ∈ ((digit_segments? (digitChar 8)).getD []).filterMap letterSeg ↔
        Seg.middle ∈ truthTable 8) :=
  c4_truth_tables 8 (by decide) Seg.middle

/-- Claim C1 (corrected), counterexample: feeding digit 1's own activation
vector (exactly segments B and C active) into the structural decoder does
not return `(digit 1, confidence 1.0)`: it returns digit 0 with confidence
2/7, because digit 1's segments are a subset of digit 0's expected set, the
two digits tie at score 2, and the iteration order awards the tie to 0. -/
theorem c1_roundtrip_counterexample :
    template_matching_predict (activationOf 1) =
      some ⟨"Template_Matching", 0, 2 / 7, false⟩ ∧
    (0 : ℕ) ≠ 1 ∧ (2 / 7 : ℚ) ≠ 1 := by
  refine ⟨?_, by decide, by norm_num⟩
  refine template_of_mirror _ 0 4 _ (by decide) ?_
  rw [show ((4 : ℤ) : ℚ) / 14 = 2 / 7 by norm_num,
    min_eq_right (by norm_num : (2 / 7 : ℚ) ≤ 1 / 2)]

/-- Claim C1 (corrected), amended: feeding digit d's own truth-table
activation vector returns digit d with confidence `min(0.5, |expected|/7)`
only for d ∈ {0,2,3,4,5,6,8}; for d ∈ {1,7} the decoder returns digit 0 and
for d = 9 it returns digit 8 (the observed segments are a subset of the
other digit's expected set, the scores tie, and the lower digit wins the
tie), with confidence `min(0.5, |expected(d)|/7)` throughout; no round trip
ever reports confidence 1.0, since the cap is 0.5. -/
theorem c1_roundtrip_amended :
    (∀ d ∈ [0, 2, 3, 4, 5, 6, 8],
      template_matching_predict (activationOf d) =
        some ⟨"Template_Matching", d, min (1 / 2) (((patterns d).length : ℚ) / 7), false⟩) ∧
    (∀ d ∈ [1, 7],
      template_matching_predict (activationOf d) =
        some ⟨"Template_Matching", 0, min (1 / 2) (((patterns d).length : ℚ) / 7), false⟩) ∧
    template_matching_predict (activationOf 9) =
      some ⟨"Template_Matching", 8, 1 / 2, false⟩ := by
  refine ⟨?_, ?_, ?_⟩
  · intro d hd
    fin_cases hd
    · exact template_of_mirror _ 0 12 _ (by decide) (by norm_num [patterns])
    · exact template_of_mirror _ 2 10 _ (by decide) (by norm_num [patterns])
    · exact template_of_mirror _ 3 10 _ (by decide) (by norm_num [patterns])
    · exact template_of_mirror _ 4 8 _ (by decide) (by norm_num [patterns])
    · exact template_of_mirror _ 5 10 _ (by decide) (by norm_num [patterns])
    · exact template_of_mirror _ 6 12 _ (by decide) (by norm_num [patterns])
    · exact template_of_mirror _ 8 14 _ (by decide) (by norm_num [patterns])
  · intro d hd
    fin_cases hd
    · exact template_of_mirror _ 0 4 _ (by decide) (by norm_num [patterns])
    · exact template_of_mirror _ 0 6 _ (by decide) (by norm_num [patterns])
  · refine template_of_mirror _ 8 12 _ (by decide) ?_
    rw [show ((12 : ℤ) : ℚ) / 14 = 6 / 7 by norm_num,
      min_eq_left (by norm_num : (1 / 2 : ℚ) ≤ 6 / 7)]

/-- Witness for `c1_roundtrip_amended` at digits 0 and 1. -/
theorem c1_roundtrip_amended_witness :
    template_matching_predict (activationOf 0) =
      some ⟨"Template_Matching", 0, min (1 / 2) (((patterns 0).length : ℚ) / 7), false⟩ ∧
    template_matching_predict (activationOf 1) =
      some ⟨"Template_Matching", 0, min (1 / 2) (((patterns 1).length : ℚ) / 7), false⟩ :=
  ⟨c1_roundtrip_amended.1 0 (by decide), c1_roundtrip_amended.2.1 1 (by decide)⟩

/-- Claim C2 (confirmed): for every activation assignment, the decoder's
per-digit score is `|expected ∩ observed-active| - 0.5 * |observed-active \
expected|`; when the maximum score over the ten digits is positive the
decoder returns the lowest-numbered digit attaining it (with the source's
confidence formula), and when the maximum score is ≤ 0 it returns the
no-digit error value rather than raising or guessing. -/
theorem c2_decoder_selection :
    ∀ states : Seg → Bool,
      (∀ d < 10,
        segScore states d =
          (specMatchCount states d : ℚ) - (1 / 2) * (specExtraCount states d : ℚ)) ∧
      (maxScore states ≤ 0 → template_matching_predict states = none) ∧
      (0 < maxScore states →
        template_matching_predict states =
          some ⟨"Template_Matching", leastBestDigit states,
            min (1 / 2) (maxScore states / 7), false⟩) := by
  have hcount : ∀ states : Seg → Bool, ∀ d < 10,
      (patterns d).countP (fun s => states s) = specMatchCount states d ∧
      allSegs.countP (fun s => states s && !(patterns d).contains s) =
        specExtraCount states d := by decide
  have key : ∀ states : Seg → Bool,
      (maxScore2 states ≤ 0 → template2 states = none) ∧
      (0 < maxScore2 states →
        template2 states = some (leastBestDigit2 states, maxScore2 states)) := by decide
  intro states
  refine ⟨?_, ?_, ?_⟩
  · intro d hd
    unfold segScore
    rw [(hcount states d hd).1, (hcount states d hd).2]
  · intro h
    have hz : maxScore2 states ≤ 0 := by
      rw [maxScore_bridge] at h
      have h2 : (maxScore2 states : ℚ) ≤ 0 := by linarith
      exact_mod_cast h2
    rw [template_bridge, (key states).1 hz]
    rfl
  · intro h
    have hz : 0 < maxScore2 states := by
      rw [maxScore_bridge] at h
      have h2 : (0 : ℚ) < (maxScore2 states : ℚ) := by linarith
      exact_mod_cast h2
    rw [template_bridge, (key states).2 hz, Option.map_some']
    rw [leastBestDigit_bridge, maxScore_bridge, div_div]
    norm_num

/-- Witness for `c2_decoder_selection` at digit 8's own activation vector
(score formula at digit 3, and the successful-selection branch). -/
theorem c2_decoder_selection_witness :
    segScore (activationOf 8) 3 =
      (specMatchCount (activationOf 8) 3 : ℚ) -
        (1 / 2) * (specExtraCount (activationOf 8) 3 : ℚ) ∧
    template_matching_predict (activationOf 8) =
      some ⟨"Template_Matching", leastBestDigit (activationOf 8),
        min (1 / 2) (maxScore (activationOf 8) / 7), false⟩ :=
  ⟨(c2_decoder_selection (activationOf 8)).1 3 (by norm_num),
   (c2_decoder_selection (activationOf 8)).2.2 (by
      rw [maxScore_bridge, show maxScore2 (activationOf 8) = 14 from by decide]
      norm_num)⟩

/-- Claim C3 (corrected), counterexample: the input matching all 7 segments
of digit 8 exactly decodes to digit 8 with confidence 1/2, not 1.0 — the
source caps the confidence at 0.5 (`min(0.5, best_score / 7)`), not 1.0. -/
theorem c3_confidence_counterexample :
    template_matching_predict (fun _ => true) =
      some ⟨"Template_Matching", 8, 1 / 2, false⟩ ∧ ((1 : ℚ) / 2) ≠ 1 := by
  constructor
  · refine template_of_mirror _ 8 14 _ (by decide) ?_
    rw [show ((14 : ℤ) : ℚ) / 14 = 1 by norm_num,
      min_eq_left (by norm_num : (1 / 2 : ℚ) ≤ 1)]
  · norm_num

/-- Claim C3 (corrected), amended: whenever the structural decoder succeeds,
the confidence it reports equals `min(0.5, best score / 7)` — capped at 0.5,
not 1.0 (on success the best score is positive, so `max(0, score)` is moot);
in particular it never exceeds 0.5, and the all-7-segments input yields 0.5. -/
theorem c3_confidence_amended :
    ∀ (states : Seg → Bool) (r : RecResult),
      template_matching_predict states = some r →
        r.confidence = min (1 / 2) (maxScore states / 7) ∧ r.confidence ≤ 1 / 2 := by
  have key2 : ∀ states : Seg → Bool,
      ((template2 states).all fun p => decide (p.2 = maxScore2 states)) = true := by decide
  intro states r h
  rw [template_bridge] at h
  cases ht : template2 states with
  | none => rw [ht] at h; simp at h
  | some p =>
      rw [ht, Option.map_some'] at h
      have hr : (⟨"Template_Matching", p.1, min (1 / 2) ((p.2 : ℚ) / 14), false⟩ : RecResult)
          = r := Option.some.inj h
      have hp : p.2 = maxScore2 states := by
        have hk := key2 states
        rw [ht] at hk
        simpa using hk
      rw [← hr]
      constructor
      · show min (1 / 2) ((p.2 : ℚ) / 14) = min (1 / 2) (maxScore states / 7)
        rw [hp, maxScore_bridge, div_div]
        norm_num
      · exact min_le_left _ _

/-- Witness for `c3_confidence_amended` at the all-segments-active input. -/
theorem c3_confidence_amended_witness :
    (1 : ℚ) / 2 = min (1 / 2) (maxScore (fun _ => true) / 7) ∧
      ((1 : ℚ) / 2) ≤ 1 / 2 := by
  have h : template_matching_predict (fun _ => true) =
      some ⟨"Template_Matching", 8, 1 / 2, false⟩ := by
    refine template_of_mirror _ 8 14 _ (by decide) ?_
    rw [show ((14 : ℤ) : ℚ) / 14 = 1 by norm_num,
      min_eq_left (by norm_num : (1 / 2 : ℚ) ≤ 1)]
  exact c3_confidence_amended (fun _ => true) _ h

/-! ### Claim theorems: clean rendering (C5) -/

/-- Claim C5 (corrected), counterexample: rendering the invalid digit `'x'`
does not fail — `digit_segments.get(digit, [])` silently yields the empty
segment list, so `create_clean_digit` produces the uniform light-gray
background image (every pixel 220) instead of raising an `InvalidDigit`
error. -/
theorem c5_invalid_digit_counterexample :
    create_clean_digit 'x' 200 300 = fun _ _ => 220 := by
  funext x y
  rfl

/-- Claim C5 (corrected), amended: for every digit character outside
`'0'..'9'`, `create_clean_digit` raises nothing and returns the uniform
background image (value 220 at every pixel, no segments drawn) — the
`.get(digit, [])` default swallows the invalid key. -/
theorem c5_invalid_digit_amended :
    ∀ digit : Char,
      digit ∉ ['0', '1', '2', '3', '4', '5', '6', '7', '8', '9'] →
      ∀ (w h : ℕ) (x y : ℤ), create_clean_digit digit w h x y = 220 := by
  intro digit hd w h x y
  have n0 : ¬ digit = '0' := fun hc => hd (by rw [hc]; decide)
  have n1 : ¬ digit = '1' := fun hc => hd (by rw [hc]; decide)
  have n2 : ¬ digit = '2' := fun hc => hd (by rw [hc]; decide)
  have n3 : ¬ digit = '3' := fun hc => hd (by rw [hc]; decide)
  have n4 : ¬ digit = '4' := fun hc => hd (by rw [hc]; decide)
  have n5 : ¬ digit = '5' := fun hc => hd (by rw [hc]; decide)
  have n6 : ¬ digit = '6' := fun hc => hd (by rw [hc]; decide)
  have n7 : ¬ digit = '7' := fun hc => hd (by rw [hc]; decide)
  have n8 : ¬ digit = '8' := fun hc => hd (by rw [hc]; decide)
  have n9 : ¬ digit = '9' := fun hc => hd (by rw [hc]; decide)
  have h0 : digit_segments? digit = none := by
    unfold digit_segments?
    rw [if_neg n0, if_neg n1, if_neg n2, if_neg n3, if_neg n4, if_neg n5,
      if_neg n6, if_neg n7, if_neg n8, if_neg n9]
  unfold create_clean_digit
  rw [h0]
  rfl

/-- Witness for `c5_invalid_digit_amended` at `'x'`, canvas 200×300,
pixel (0, 0). -/
theorem c5_invalid_digit_amended_witness :
    create_clean_digit 'x' 200 300 0 0 = 220 :=
  c5_invalid_digit_amended 'x' (by decide) 200 300 0 0

/-! ### Claim theorems: degradation pipeline (C6-C8) -/

lemma toByte_clip255_le (q : ℚ) : toByte (clip255 q) ≤ 255 := by
  unfold toByte clip255
  have h1 : max 0 (min 255 q) ≤ ((255 : ℤ) : ℚ) := by
    push_cast
    exact max_le (by norm_num) (min_le_left _ _)
  have h2 : ⌊max 0 (min 255 q)⌋ ≤ (255 : ℤ) := by
    calc ⌊max 0 (min 255 q)⌋ ≤ ⌊((255 : ℤ) : ℚ)⌋ := Int.floor_le_floor h1
    _ = 255 := Int.floor_intCast _
  exact Int.toNat_le.mpr h2

lemma clip255_eval (q : ℚ) (h1 : 0 ≤ q) (h2 : q ≤ 255) : clip255 q = q := by
  unfold clip255
  rw [min_eq_right h2, max_eq_right h1]

lemma toByte_eval (q : ℚ) (n : ℕ) (h1 : (n : ℚ) ≤ q) (h2 : q < n + 1) :
    toByte q = n := by
  unfold toByte
  have hf : ⌊q⌋ = (n : ℤ) := by
    rw [Int.floor_eq_iff]
    constructor
    · exact_mod_cast h1
    · push_cast
      exact h2
  rw [hf]
  exact Int.toNat_natCast n

lemma toByte_clip255_id (p : ℕ) (hp : p ≤ 255) : toByte (clip255 (p : ℚ)) = p := by
  rw [clip255_eval _ (by positivity) (by exact_mod_cast hp)]
  exact toByte_eval _ p le_rfl (by
    have : ((p : ℚ)) < (p : ℚ) + 1 := by linarith
    exact_mod_cast this)

/-- Claim C6 (confirmed): for every input image, for every value of every
random draw (contrast factor, lightening delta, reflection overlays, smudge
amounts, dust hits and grays, Gaussian noise, lighting gradient), every
pixel produced by the full degradation pipeline lies within the valid uint8
range — the value is a natural number (hence ≥ 0) and is at most 255,
because every stage, the final lighting stage included, clips to [0, 255]
before converting back to uint8. -/
theorem c6_degrade_bounded :
    ∀ (img : ℕ → ℕ → ℕ) (draws : ℕ → ℕ → PixelDraws) (x y : ℕ),
      add_realistic_effects img draws x y ≤ 255 := by
  intro img draws x y
  unfold add_realistic_effects add_realistic_effects_pixel varyLightingPixel
  exact toByte_clip255_le _

/-- Claim C7 (confirmed): in `_reduce_contrast` the lightening delta `δ` is
added exactly to the pixels that are dark (< 100) in the *original*
pre-compression image — value 40, the rendered segment pixels — and not to
background pixels (220), for every drawn `c` and `δ`; and this genuinely
differs from the rejected reading that masks on the already-compressed
image: at `c = 0.3` the compressed segment value is already ≥ 100, yet the
source still lightens it, while the post-compression-mask variant would
not. -/
theorem c7_contrast_mask :
    ∀ c δ : ℚ,
      (reduceContrastPixel 40 c δ =
        toByte (clip255 ((1 / 2 + c * ((40 : ℚ) / 255 - 1 / 2) + δ) * 255))) ∧
      (reduceContrastPixel 220 c δ =
        toByte (clip255 ((1 / 2 + c * ((220 : ℚ) / 255 - 1 / 2)) * 255))) ∧
      (100 : ℚ) ≤ (1 / 2 + (3 / 10 : ℚ) * ((40 : ℚ) / 255 - 1 / 2)) * 255 ∧
      reduceContrastPixel 40 (3 / 10) (1 / 10) ≠
        reduceContrastPostMaskPixel 40 (3 / 10) (1 / 10) := by
  have e1 : reduceContrastPixel 40 (3 / 10) (1 / 10) = 126 := by
    unfold reduceContrastPixel
    rw [if_pos (by norm_num : (40 : ℕ) < 100)]
    rw [show ((1 : ℚ) / 2 + 3 / 10 * (((40 : ℕ) : ℚ) / 255 - 1 / 2) + 1 / 10) * 255 =
      507 / 4 by push_cast; norm_num]
    rw [clip255_eval _ (by norm_num) (by norm_num)]
    exact toByte_eval _ 126 (by norm_num) (by norm_num)
  have e2 : reduceContrastPostMaskPixel 40 (3 / 10) (1 / 10) = 101 := by
    unfold reduceContrastPostMaskPixel
    rw [if_neg (by push_cast; norm_num)]
    rw [show ((1 : ℚ) / 2 + 3 / 10 * (((40 : ℕ) : ℚ) / 255 - 1 / 2) + 0) * 255 =
      405 / 4 by push_cast; norm_num]
    rw [clip255_eval _ (by norm_num) (by norm_num)]
    exact toByte_eval _ 101 (by norm_num) (by norm_num)
  intro c δ
  refine ⟨?_, ?_, by norm_num, ?_⟩
  · unfold reduceContrastPixel
    rw [if_pos (by norm_num : (40 : ℕ) < 100)]
    norm_num
  · unfold reduceContrastPixel
    rw [if_neg (by norm_num : ¬ (220 : ℕ) < 100)]
    norm_num
  · rw [e1, e2]
    decide

/-- Per-pixel draw record used to exhibit the two-global-streams behaviour
of the pipeline: all python-`random`-drawn parameters are fixed and only the
`np.random`-drawn per-pixel noise value `n` varies. -/
def c8drawsBase (n : ℚ) : PixelDraws :=
  ⟨1 / 2, 1 / 10, [0], [0, 0], [(false, 100)], n, 1⟩

lemma pipelineEvalNoise (n : ℚ) (v : ℕ) (hv : v ≤ 255)
    (hn : ((173 : ℚ)) + n = (v : ℚ)) :
    add_realistic_effects_pixel 220 (c8drawsBase n) = v := by
  have s1 : reduceContrastPixel 220 (1 / 2) (1 / 10) = 173 := by
    unfold reduceContrastPixel
    rw [if_neg (by norm_num : ¬ (220 : ℕ) < 100)]
    rw [show ((1 : ℚ) / 2 + 1 / 2 * (((220 : ℕ) : ℚ) / 255 - 1 / 2) + 0) * 255 =
      695 / 4 by push_cast; norm_num]
    rw [clip255_eval _ (by norm_num) (by norm_num)]
    exact toByte_eval _ 173 (by norm_num) (by norm_num)
  have s2 : addReflectionsPixel 173 [0] = 173 := by
    unfold addReflectionsPixel addReflectionPixel
    simp only [List.foldl_cons, List.foldl_nil]
    rw [show ((173 : ℕ) : ℚ) + 0 * 255 = ((173 : ℕ) : ℚ) by ring]
    exact toByte_clip255_id 173 (by norm_num)
  have sm : addSmudgePixel 173 0 = 173 := by
    unfold addSmudgePixel
    rw [show ((173 : ℕ) : ℚ) - 0 = ((173 : ℕ) : ℚ) by ring]
    exact toByte_clip255_id 173 (by norm_num)
  have s3 : addSmudgesPixel 173 [0, 0] = 173 := by
    unfold addSmudgesPixel
    simp only [List.foldl_cons, List.foldl_nil]
    rw [sm, sm]
  have s4 : addDustPixel 173 [(false, 100)] = 173 := by
    unfold addDustPixel
    simp
  have s5 : addNoisePixel 173 n = v := by
    unfold addNoisePixel
    rw [show ((173 : ℕ) : ℚ) + n = ((v : ℕ) : ℚ) by push_cast at hn ⊢; linarith]
    exact toByte_clip255_id v hv
  have s6 : varyLightingPixel v 1 = v := by
    unfold varyLightingPixel
    rw [mul_one]
    exact toByte_clip255_id v hv
  show varyLightingPixel (addNoisePixel (addDustPixel (addSmudgesPixel
    (addReflectionsPixel (reduceContrastPixel 220 (1 / 2) (1 / 10)) [0]) [0, 0])
    [(false, 100)]) n) 1 = v
  rw [s1, s2, s3, s4, s5, s6]

/-- Claim C8 (corrected), counterexample: with every parameter the source
draws from the python-global `random` module held fixed (contrast factor,
lightening delta, reflection overlays, smudge amounts, dust, lighting), two
different values of the `np.random`-drawn per-pixel noise produce different
output pixels — so the degradation output is not determined by a single
caller-supplied random source: the noise stage reads a second, hidden
global generator (`np.random.normal`), and indeed no rng parameter is
threaded through `add_realistic_effects` at all. -/
theorem c8_rng_counterexample :
    add_realistic_effects_pixel 220 (c8drawsBase 0) ≠
      add_realistic_effects_pixel 220 (c8drawsBase 10) ∧
    (c8drawsBase 0).contrastFactor = (c8drawsBase 10).contrastFactor ∧
    (c8drawsBase 0).brighten = (c8drawsBase 10).brighten ∧
    (c8drawsBase 0).reflections = (c8drawsBase 10).reflections ∧
    (c8drawsBase 0).smudges = (c8drawsBase 10).smudges ∧
    (c8drawsBase 0).dust = (c8drawsBase 10).dust ∧
    (c8drawsBase 0).lighting = (c8drawsBase 10).lighting ∧
    (c8drawsBase 0).noise ≠ (c8drawsBase 10).noise := by
  have h0 : add_realistic_effects_pixel 220 (c8drawsBase 0) = 173 :=
    pipelineEvalNoise 0 173 (by norm_num) (by norm_num)
  have h10 : add_realistic_effects_pixel 220 (c8drawsBase 10) = 183 :=
    pipelineEvalNoise 10 183 (by norm_num) (by norm_num)
  refine ⟨?_, rfl, rfl, rfl, rfl, rfl, rfl, by norm_num [c8drawsBase]⟩
  rw [h0, h10]
  decide

/-- Claim C8 (corrected), amended: the pipeline threads no random-source
parameter; it consumes the process-global python `random` stream (contrast,
reflections, smudges, dust, lighting) *and* the process-global `np.random`
stream (per-pixel Gaussian noise).  Its output is a deterministic function
of the input pixel together with the draws of both global streams —
identical draws give identical outputs — while fixing the python-side draws
alone does not determine the output, since varying only the numpy-drawn
noise changes it. -/
theorem c8_rng_amended :
    (∀ (orig : ℕ) (d e : PixelDraws), d = e →
        add_realistic_effects_pixel orig d = add_realistic_effects_pixel orig e) ∧
    add_realistic_effects_pixel 220 (c8drawsBase 0) ≠
      add_realistic_effects_pixel 220 (c8drawsBase 10) := by
  constructor
  · intro orig d e h
    rw [h]
  · have h0 : add_realistic_effects_pixel 220 (c8drawsBase 0) = 173 :=
      pipelineEvalNoise 0 173 (by norm_num) (by norm_num)
    have h10 : add_realistic_effects_pixel 220 (c8drawsBase 10) = 183 :=
      pipelineEvalNoise 10 183 (by norm_num) (by norm_num)
    rw [h0, h10]
    decide

/-- Witness for `c8_rng_amended`: the determinism conjunct applied at the
concrete pixel 220 and the concrete draw record. -/
theorem c8_rng_amended_witness :
    add_realistic_effects_pixel 220 (c8drawsBase 0) =
      add_realistic_effects_pixel 220 (c8drawsBase 0) :=
  c8_rng_amended.1 220 (c8drawsBase 0) (c8drawsBase 0) rfl

/-! ### Arbitration lemmas (C9-C10) -/

/-- Python's first-wins `max` characterised: the selected result appears in
the list, everything strictly before it has strictly smaller confidence,
and nothing in the list has larger confidence. -/
lemma maxByConf_spec (rs : List RecResult) : ∀ r : RecResult,
    ∃ l₁ l₂, r :: rs = l₁ ++ maxByConf r rs :: l₂ ∧
      (∀ x ∈ l₁, x.confidence < (maxByConf r rs).confidence) ∧
      (∀ x ∈ r :: rs, x.confidence ≤ (maxByConf r rs).confidence) := by
  induction rs with
  | nil =>
      intro r
      refine ⟨[], [], rfl, by simp, ?_⟩
      intro x hx
      have hx' : x = r := by simpa using hx
      subst hx'
      exact le_refl _
  | cons x xs ih =>
      intro r
      have hstep : maxByConf r (x :: xs) =
          maxByConf (if x.confidence > r.confidence then x else r) xs := rfl
      by_cases h : x.confidence > r.confidence
      · obtain ⟨l₁, l₂, heq, hlt, hle⟩ := ih x
        have hb : maxByConf r (x :: xs) = maxByConf x xs := by rw [hstep, if_pos h]
        have hxb : x.confidence ≤ (maxByConf x xs).confidence :=
          hle x (List.mem_cons_self x xs)
        refine ⟨r :: l₁, l₂, ?_, ?_, ?_⟩
        · rw [hb, List.cons_append, ← heq]
        · intro y hy
          rw [hb]
          rcases List.mem_cons.mp hy with rfl | hy'
          · exact lt_of_lt_of_le h hxb
          · exact hlt y hy'
        · intro y hy
          rw [hb]
          rcases List.mem_cons.mp hy with rfl | hy'
          · exact le_of_lt (lt_of_lt_of_le h hxb)
          · exact hle y hy'
      · obtain ⟨l₁, l₂, heq, hlt, hle⟩ := ih r
        have hb : maxByConf r (x :: xs) = maxByConf r xs := by rw [hstep, if_neg h]
        have hxr : x.confidence ≤ r.confidence := not_lt.mp h
        have hrb : r.confidence ≤ (maxByConf r xs).confidence :=
          hle r (List.mem_cons_self r xs)
        cases l₁ with
        | nil =>
            have h1 : r = maxByConf r xs := by
              have := heq
              simp only [List.nil_append] at this
              exact (List.cons.inj this).1
            have h2 : xs = l₂ := by
              have := heq
              simp only [List.nil_append] at this
              exact (List.cons.inj this).2
            refine ⟨[], x :: xs, ?_, by simp, ?_⟩
            · rw [hb, ← h1]
              rfl
            · intro y hy
              rw [hb, ← h1]
              rcases List.mem_cons.mp hy with rfl | hy'
              · exact le_refl _
              · rcases List.mem_cons.mp hy' with rfl | hy''
                · exact hxr
                · have : y ∈ r :: xs := List.mem_cons_of_mem r hy''
                  calc y.confidence ≤ (maxByConf r xs).confidence := hle y this
                  _ = r.confidence := by rw [← h1]
        | cons a l₁' =>
            have h1 : r = a := (List.cons.inj heq).1
            have h2 : xs = l₁' ++ maxByConf r xs :: l₂ := (List.cons.inj heq).2
            have hrlt : r.confidence < (maxByConf r xs).confidence := by
              apply hlt
              rw [← h1]
              exact List.mem_cons_self r l₁'
            refine ⟨r :: x :: l₁', l₂, ?_, ?_, ?_⟩
            · rw [hb, List.cons_append, List.cons_append, ← h2]
            · intro y hy
              rw [hb]
              rcases List.mem_cons.mp hy with hyr | hy'
              · rw [hyr]
                exact hrlt
              · rcases List.mem_cons.mp hy' with hyx | hy''
                · rw [hyx]
                  exact lt_of_le_of_lt hxr hrlt
                · apply hlt
                  rw [← h1]
                  exact List.mem_cons_of_mem r hy''
            · intro y hy
              rw [hb]
              rcases List.mem_cons.mp hy with hyr | hy'
              · rw [hyr]
                exact hle r (List.mem_cons_self r xs)
              · rcases List.mem_cons.mp hy' with hyx | hy''
                · rw [hyx]
                  exact le_trans hxr (le_of_lt hrlt)
                · exact hle y (List.mem_cons_of_mem r hy'')

/-- The selected best result is one of the gathered results. -/
lemma maxByConf_mem (r : RecResult) (rs : List RecResult) :
    maxByConf r rs ∈ r :: rs := by
  obtain ⟨l₁, l₂, heq, _, _⟩ := maxByConf_spec rs r
  rw [heq]
  exact List.mem_append_right _ (List.mem_cons_self _ _)

/-- Every result gathered by `predict_digit`'s loop is one of: already in
the accumulator, a CNN result, a traditional-OCR result, or a template
result. -/
lemma gather_mem (flags : OCRFlags) (inp : OCRInputs) (methods : List String) :
    ∀ (acc : List RecResult) (x : RecResult),
      x ∈ methods.foldl (fun acc m =>
        if m = "cnn" ∧ flags.cnn_available then
          acc ++ (cnn_predict_digit flags.cnn_available inp.cnnOut).toList
        else if m = "traditional" ∧ flags.tesseract_available then
          acc ++ (traditional_ocr_predict flags.tesseract_available inp.ocrText).toList
        else if m = "template" then
          acc ++ (template_matching_predict inp.segStates).toList
        else acc) acc →
      x ∈ acc ∨ x ∈ (cnn_predict_digit flags.cnn_available inp.cnnOut).toList ∨
        x ∈ (traditional_ocr_predict flags.tesseract_available inp.ocrText).toList ∨
        x ∈ (template_matching_predict inp.segStates).toList := by
  induction methods with
  | nil => intro acc x hx; exact Or.inl hx
  | cons m ms ih =>
      intro acc x hx
      simp only [List.foldl_cons] at hx
      by_cases h1 : m = "cnn" ∧ flags.cnn_available
      · rw [if_pos h1] at hx
        rcases ih _ x hx with h | h
        · rcases List.mem_append.mp h with h' | h'
          · exact Or.inl h'
          · exact Or.inr (Or.inl h')
        · exact Or.inr h
      · rw [if_neg h1] at hx
        by_cases h2 : m = "traditional" ∧ flags.tesseract_available
        · rw [if_pos h2] at hx
          rcases ih _ x hx with h | h
          · rcases List.mem_append.mp h with h' | h'
            · exact Or.inl h'
            · exact Or.inr (Or.inr (Or.inl h'))
          · exact Or.inr h
        · rw [if_neg h2] at hx
          by_cases h3 : m = "template"
          · rw [if_pos h3] at hx
            rcases ih _ x hx with h | h
            · rcases List.mem_append.mp h with h' | h'
              · exact Or.inl h'
              · exact Or.inr (Or.inr (Or.inr h'))
            · exact Or.inr h
          · rw [if_neg h3] at hx
            exact ih _ x hx

lemma npArgmaxGo_lt (l : List ℚ) :
    ∀ (i bi : ℕ) (bv : ℚ), bi < i → npArgmaxGo l i bi bv < i + l.length := by
  induction l with
  | nil =>
      intro i bi bv h
      unfold npArgmaxGo
      simpa using h
  | cons x xs ih =>
      intro i bi bv h
      unfold npArgmaxGo
      by_cases hx : x > bv
      · rw [if_pos hx]
        have h2 := ih (i + 1) i x (Nat.lt_succ_self i)
        simp only [List.length_cons]
        omega
      · rw [if_neg hx]
        have h2 := ih (i + 1) bi bv (Nat.lt_succ_of_lt h)
        simp only [List.length_cons]
        omega

lemma npArgmax_lt (l : List ℚ) (h : l ≠ []) : npArgmax l < l.length := by
  cases l with
  | nil => exact absurd rfl h
  | cons x xs =>
      unfold npArgmax
      have h2 := npArgmaxGo_lt xs 1 0 x (by norm_num)
      simp only [List.length_cons]
      omega

lemma cnn_digit_le (avail : Bool) (out : CnnOut) (r : RecResult)
    (h : cnn_predict_digit avail out = some r) (hwf : wellFormedOut out) :
    r.digit ≤ 9 := by
  unfold cnn_predict_digit at h
  cases avail with
  | false => simp at h
  | true =>
      rw [if_pos rfl] at h
      cases out with
      | dual dp sp =>
          have hr := Option.some.inj h
          have hd : r.digit = npArgmax dp := by rw [← hr]
          have hlen : dp.length = 10 := hwf
          have hne : dp ≠ [] := by
            intro hc
            rw [hc] at hlen
            simp at hlen
          have hlt := npArgmax_lt dp hne
          rw [hlen] at hlt
          rw [hd]
          omega
      | single p =>
          have hr := Option.some.inj h
          have hd : r.digit = npArgmax p := by rw [← hr]
          have hlen : p.length = 10 := hwf
          have hne : p ≠ [] := by
            intro hc
            rw [hc] at hlen
            simp at hlen
          have hlt := npArgmax_lt p hne
          rw [hlen] at hlt
          rw [hd]
          omega

lemma digitVal_le (c : Char) (v : Nat) (h : digitVal? c = some v) : v ≤ 9 := by
  unfold digitVal? at h
  split_ifs at h <;> simp_all <;> omega

lemma trad_digit_le (avail : Bool) (text : String) (r : RecResult)
    (h : traditional_ocr_predict avail text = some r) : r.digit ≤ 9 := by
  unfold traditional_ocr_predict at h
  cases avail with
  | false => simp at h
  | true =>
      rw [if_pos rfl] at h
      split at h
      · rcases Option.map_eq_some'.mp h with ⟨v, hv, hr⟩
        have hd : r.digit = v := by rw [← hr]
        rw [hd]
        exact digitVal_le _ _ hv
      · simp at h

lemma templateFold_digit (states : Seg → Bool) (l : List ℕ) :
    ∀ (acc : Option ℕ × ℚ) (d : ℕ),
      (l.foldl (fun acc d =>
        if segScore states d > acc.2 then (some d, segScore states d) else acc) acc).1 =
        some d →
      acc.1 = some d ∨ d ∈ l := by
  induction l with
  | nil => intro acc d h; exact Or.inl h
  | cons e l ih =>
      intro acc d h
      simp only [List.foldl_cons] at h
      by_cases he : segScore states e > acc.2
      · rw [if_pos he] at h
        rcases ih _ d h with h' | h'
        · have : e = d := Option.some.inj h'
          rw [← this]
          exact Or.inr (List.mem_cons_self e l)
        · exact Or.inr (List.mem_cons_of_mem e h')
      · rw [if_neg he] at h
        rcases ih _ d h with h' | h'
        · exact Or.inl h'
        · exact Or.inr (List.mem_cons_of_mem e h')

lemma template_digit_le (states : Seg → Bool) (r : RecResult)
    (h : template_matching_predict states = some r) : r.digit ≤ 9 := by
  unfold template_matching_predict at h
  rcases hb : templateBest states with ⟨o, s⟩
  rw [hb] at h
  cases o with
  | none => simp at h
  | some d =>
      have h2 : (if s > 0 then
          some (⟨"Template_Matching", d, min (1 / 2) (s / 7), false⟩ : RecResult)
        else none) = some r := h
      by_cases hs : s > 0
      · rw [if_pos hs] at h2
        have hr := Option.some.inj h2
        have hd : r.digit = d := by rw [← hr]
        have h1 : (templateBest states).1 = some d := by rw [hb]
        unfold templateBest at h1
        rcases templateFold_digit states (List.range 10) (none, 0) d h1 with h' | h'
        · simp at h'
        · have : d < 10 := List.mem_range.mp h'
          rw [hd]
          omega
      · rw [if_neg hs] at h2
        simp at h2

/-- Evaluation of the CNN oracle result on the tie-break inputs. -/
lemma c9cnn_eval :
    cnn_predict_digit true c9Inp.cnnOut = some ⟨"CNN_v2", 0, 3/5, true⟩ := by
  have ha : npArgmax [(3:ℚ)/5, 2/5] = 0 := by
    unfold npArgmax npArgmaxGo
    rw [if_neg (by norm_num : ¬ ((2:ℚ)/5 > 3/5))]
    rfl
  have hm : npMax [(3:ℚ)/5, 2/5] = 3/5 := by
    unfold npMax
    simp only [List.foldl_cons, List.foldl_nil]
    exact max_eq_left (by norm_num)
  show (some (⟨"CNN_v2", npArgmax [(3:ℚ)/5, 2/5], npMax [(3:ℚ)/5, 2/5],
      decide ((1:ℚ)/2 ≤ npMax [(3:ℚ)/5, 2/5])⟩ : RecResult) : Option RecResult) =
    some ⟨"CNN_v2", 0, 3/5, true⟩
  rw [ha, hm]
  simp only [Option.some.injEq, RecResult.mk.injEq, true_and]
  rw [decide_eq_true_eq]
  norm_num

/-- Evaluation of the gathered results for the tie-break counterexample:
traditional first (confidence 0.6), then the CNN (confidence 0.6). -/
lemma c9gather_eval :
    gatherResults ⟨true, true⟩ c9Inp ["traditional", "cnn"] =
      [⟨"Traditional_OCR", 5, 3/5, true⟩, ⟨"CNN_v2", 0, 3/5, true⟩] := by
  show ([] ++ (traditional_ocr_predict true c9Inp.ocrText).toList) ++
      (cnn_predict_digit true c9Inp.cnnOut).toList = _
  rw [c9cnn_eval,
    show traditional_ocr_predict true c9Inp.ocrText =
      some ⟨"Traditional_OCR", 5, 3/5, true⟩ from rfl]
  rfl

/-! ### Claim theorems: arbitration (C9-C10) -/

/-- Claim C9 (corrected), counterexample: with the traditional method and
the CNN both producing a digit at the same confidence 0.6, requesting
`['traditional', 'cnn']` returns the traditional result, not the neural
one — confidence ties are broken by position in the requested method list
(Python's `max` keeps the first maximum), not by the fixed priority
neural > structural > traditional. -/
theorem c9_tiebreak_counterexample :
    predict_digit ⟨true, true⟩ c9Inp ["traditional", "cnn"] =
      .ok ⟨"Traditional_OCR", 5, 3/5, true⟩ ∧
    cnn_predict_digit true c9Inp.cnnOut = some ⟨"CNN_v2", 0, 3/5, true⟩ ∧
    "Traditional_OCR" ≠ "CNN_v2" := by
  refine ⟨?_, c9cnn_eval, by decide⟩
  unfold predict_digit
  rw [c9gather_eval]
  show PredictOutcome.ok
      (maxByConf ⟨"Traditional_OCR", 5, 3/5, true⟩ [⟨"CNN_v2", 0, 3/5, true⟩]) = _
  unfold maxByConf
  simp only [List.foldl_cons, List.foldl_nil]
  rw [if_neg (by norm_num : ¬ ((3:ℚ)/5 > 3/5))]

/-- Claim C9 (corrected), amended: `predict_digit` invokes each requested
method (the CNN and Tesseract only when available), discards results
without a digit, and returns the gathered result with the highest
confidence, breaking confidence ties by position in the requested method
list (the first maximum wins) rather than by a fixed
neural > structural > traditional priority; when no requested method
produces a digit it returns the all-failed error value carrying the
requested method list. -/
theorem c9_arbitration_amended :
    ∀ (flags : OCRFlags) (inp : OCRInputs) (methods : List String),
      (gatherResults flags inp methods = [] →
        predict_digit flags inp methods = .allFailed methods) ∧
      (∀ r rs, gatherResults flags inp methods = r :: rs →
        predict_digit flags inp methods = .ok (maxByConf r rs) ∧
        (∃ l₁ l₂, r :: rs = l₁ ++ maxByConf r rs :: l₂ ∧
          (∀ x ∈ l₁, x.confidence < (maxByConf r rs).confidence)) ∧
        (∀ x ∈ r :: rs, x.confidence ≤ (maxByConf r rs).confidence)) := by
  intro flags inp methods
  constructor
  · intro h
    unfold predict_digit
    rw [h]
  · intro r rs h
    refine ⟨?_, ?_, ?_⟩
    · unfold predict_digit
      rw [h]
    · obtain ⟨l₁, l₂, heq, hlt, _⟩ := maxByConf_spec rs r
      exact ⟨l₁, l₂, heq, hlt⟩
    · obtain ⟨_, _, _, _, hle⟩ := maxByConf_spec rs r
      exact hle

/-- Witness for `c9_arbitration_amended` at the concrete tie input. -/
theorem c9_arbitration_amended_witness :
    predict_digit ⟨true, true⟩ c9Inp ["traditional", "cnn"] =
      .ok (maxByConf ⟨"Traditional_OCR", 5, 3/5, true⟩ [⟨"CNN_v2", 0, 3/5, true⟩]) ∧
    (∃ l₁ l₂,
      [(⟨"Traditional_OCR", 5, 3/5, true⟩ : RecResult), ⟨"CNN_v2", 0, 3/5, true⟩] =
        l₁ ++ maxByConf ⟨"Traditional_OCR", 5, 3/5, true⟩ [⟨"CNN_v2", 0, 3/5, true⟩] :: l₂ ∧
      (∀ x ∈ l₁, x.confidence <
        (maxByConf ⟨"Traditional_OCR", 5, 3/5, true⟩
          [⟨"CNN_v2", 0, 3/5, true⟩]).confidence)) ∧
    (∀ x ∈ [(⟨"Traditional_OCR", 5, 3/5, true⟩ : RecResult), ⟨"CNN_v2", 0, 3/5, true⟩],
      x.confidence ≤
        (maxByConf ⟨"Traditional_OCR", 5, 3/5, true⟩
          [⟨"CNN_v2", 0, 3/5, true⟩]).confidence) :=
  (c9_arbitration_amended ⟨true, true⟩ c9Inp ["traditional", "cnn"]).2
    ⟨"Traditional_OCR", 5, 3/5, true⟩ [⟨"CNN_v2", 0, 3/5, true⟩] c9gather_eval

/-- Claim C10 (confirmed): whenever `predict_digit` (with its default
method list) yields a digit result, `process_humidity_reading` returns the
valid dict carrying exactly that digit and confidence: every method's
digit lies in 0..9 (CNN: argmax over a 10-class vector; traditional: a
single parsed digit character; template: a key of the 10-entry pattern
table), so the humidity range check `0 <= h <= 100` always passes and the
out-of-range branch is unreachable. -/
theorem c10_humidity_valid :
    ∀ (flags : OCRFlags) (inp : OCRInputs),
      wellFormedProbs inp →
      ∀ r : RecResult, predict_digit flags inp defaultMethods = .ok r →
        r.digit ≤ 9 ∧
        process_humidity_reading flags inp =
          .valid r.digit r.confidence r.method r.is_confident := by
  intro flags inp hwf r h
  have hdig : r.digit ≤ 9 := by
    have h' := h
    unfold predict_digit at h'
    cases hg : gatherResults flags inp defaultMethods with
    | nil =>
        rw [hg] at h'
        exact absurd h' (by simp)
    | cons r0 rs =>
        rw [hg] at h'
        have hr : maxByConf r0 rs = r := by
          cases h'
          rfl
        have hmem : r ∈ r0 :: rs := hr ▸ maxByConf_mem r0 rs
        rw [← hg] at hmem
        unfold gatherResults at hmem
        rcases gather_mem flags inp defaultMethods [] r hmem with h1 | h1 | h1 | h1
        · simp at h1
        · cases hcr : cnn_predict_digit flags.cnn_available inp.cnnOut with
          | none => rw [hcr] at h1; simp at h1
          | some rc =>
              rw [hcr] at h1
              have : r = rc := by simpa using h1
              subst this
              exact cnn_digit_le _ _ _ hcr hwf
        · cases htr : traditional_ocr_predict flags.tesseract_available inp.ocrText with
          | none => rw [htr] at h1; simp at h1
          | some rt =>
              rw [htr] at h1
              have : r = rt := by simpa using h1
              subst this
              exact trad_digit_le _ _ _ htr
        · cases htp : template_matching_predict inp.segStates with
          | none => rw [htp] at h1; simp at h1
          | some rp =>
              rw [htp] at h1
              have : r = rp := by simpa using h1
              subst this
              exact template_digit_le _ _ htp
  refine ⟨hdig, ?_⟩
  unfold process_humidity_reading
  rw [h]
  show (if r.digit ≤ 100 then
      HumidityResult.valid r.digit r.confidence r.method r.is_confident
    else HumidityResult.outOfRange r.digit r.confidence r.method) =
    HumidityResult.valid r.digit r.confidence r.method r.is_confident
  rw [if_pos (by omega : r.digit ≤ 100)]

/-- Witness for `c10_humidity_valid`: only the template method available,
fed digit 8's own activation vector. -/
theorem c10_humidity_valid_witness :
    (⟨"Template_Matching", 8, 1/2, false⟩ : RecResult).digit ≤ 9 ∧
    process_humidity_reading ⟨false, false⟩ c10Inp =
      .valid (⟨"Template_Matching", 8, 1/2, false⟩ : RecResult).digit
        (⟨"Template_Matching", 8, 1/2, false⟩ : RecResult).confidence
        (⟨"Template_Matching", 8, 1/2, false⟩ : RecResult).method
        (⟨"Template_Matching", 8, 1/2, false⟩ : RecResult).is_confident :=
  c10_humidity_valid ⟨false, false⟩ c10Inp (by rfl)
    ⟨"Template_Matching", 8, 1/2, false⟩ (by
      have htp : template_matching_predict (activationOf 8) =
          some ⟨"Template_Matching", 8, 1/2, false⟩ := by
        refine template_of_mirror _ 8 14 _ (by decide) ?_
        rw [show ((14 : ℤ) : ℚ) / 14 = 1 by norm_num,
          min_eq_left (by norm_num : (1 / 2 : ℚ) ≤ 1)]
      have hg10 : gatherResults ⟨false, false⟩ c10Inp defaultMethods =
          [⟨"Template_Matching", 8, 1/2, false⟩] := by
        show [] ++ (template_matching_predict c10Inp.segStates).toList = _
        rw [show c10Inp.segStates = activationOf 8 from rfl, htp]
        rfl
      unfold predict_digit
      rw [hg10]
      rfl)

end HumidityOCR
